import Mathlib

/-!
# Verification of the TenzikCore runtime and federation layer

A shallow embedding of the Rust sources of `TenzikCore`
(`crates/runtime/src/{receipts,sandbox,validation,execution}.rs` and
`crates/federation/src/{storage,gossip}.rs`) together with proofs about
receipt construction and verification, the sandbox import allowlist, the
event-DAG store (`add_event`, tips, per-node sequences) and the gossip
sync handler.

Modelling conventions:
* Rust `u32`/`u64`/`usize` counters are modelled as `Nat` (none of the
  verified properties involve wrap-around behaviour).
* sled `Tree` sub-stores are modelled as association lists
  `List (String × α)` with keyed lookup, replace-or-append insert and
  remove.
* External pure libraries (BLAKE3, Ed25519, the chrono RFC 3339 parser and
  the wasmtime binary parser) are parameters of the embedded functions:
  the definitions below are parameterised over the hash function, the
  signature scheme, the timestamp-validity predicate and the module
  parser, exactly at the call sites where the Rust code calls into those
  crates.
* `f64` fields that only feed number formatting (`memory_mb`) are
  modelled as fixed-point values in thousandths, matching the `{:.3}`
  formatting used in the signing payload.
-/

namespace Tenzik

/-! ## Association-list stores (model of sled `Tree`) -/

/-- Lookup in an association-list store (model of `Tree::get`). -/
def lookupA {α : Type} : List (String × α) → String → Option α
  | [], _ => none
  | kv :: tl, k => if kv.1 = k then some kv.2 else lookupA tl k

/-- Keyed insert into an association-list store, overwriting an existing
entry (model of `Tree::insert`). -/
def insertA {α : Type} : List (String × α) → String → α → List (String × α)
  | [], k, v => [(k, v)]
  | kv :: tl, k, v => if kv.1 = k then (k, v) :: tl else kv :: insertA tl k v

/-- Remove a key from an association-list store (model of `Tree::remove`). -/
def removeA {α : Type} : List (String × α) → String → List (String × α)
  | [], _ => []
  | kv :: tl, k => if kv.1 = k then removeA tl k else kv :: removeA tl k

/-- Keys present in a store (as a decidable Bool). -/
def containsA {α : Type} (l : List (String × α)) (k : String) : Bool :=
  (lookupA l k).isSome

/-! ## Hex encoding and decoding (model of the `hex` crate) -/

/-- Lowercase hex digit for a value below 16 (model of `hex::encode`'s
digit table). -/
def hexDigitChar (n : Nat) : Char :=
  if n < 10 then Char.ofNat (48 + n) else Char.ofNat (87 + n)

/-- Two lowercase hex digits of one byte. -/
def hexEncodeByte (b : Nat) : List Char :=
  [hexDigitChar (b / 16), hexDigitChar (b % 16)]

/-- `hex::encode` over a byte sequence (bytes as `Nat` values below 256). -/
def hexEncode (bs : List Nat) : String :=
  String.mk ((bs.map hexEncodeByte).flatten)

/-- Value of one hex digit, accepting both cases (model of `hex::decode`'s
digit parsing). -/
def hexDigitVal (c : Char) : Option Nat :=
  if 48 ≤ c.toNat ∧ c.toNat ≤ 57 then some (c.toNat - 48)
  else if 97 ≤ c.toNat ∧ c.toNat ≤ 102 then some (c.toNat - 87)
  else if 65 ≤ c.toNat ∧ c.toNat ≤ 70 then some (c.toNat - 55)
  else none

/-- `hex::decode` over the character list of a string: pairs of digits
become bytes, an odd length or a non-digit fails. -/
def hexDecodeChars : List Char → Option (List Nat)
  | [] => some []
  | c1 :: c2 :: rest =>
    match hexDigitVal c1, hexDigitVal c2, hexDecodeChars rest with
    | some hi, some lo, some tl => some ((16 * hi + lo) :: tl)
    | _, _, _ => none
  | [_] => none

/-- `hex::decode` on a string. -/
def hexDecode (s : String) : Option (List Nat) :=
  hexDecodeChars s.data

/-! ## Execution receipts (`crates/runtime/src/receipts.rs`) -/

/-- Execution metrics collected during capsule execution
(`ExecMetrics`). The `f64` field `memory_mb` is modelled in thousandths
(`memory_mb_milli`), matching the `{:.3}` formatting used when the
metrics enter the signing payload. -/
structure ExecMetrics where
  fuel_used : Nat
  memory_mb_milli : Nat
  duration_ms : Nat
  host_function_calls : Nat
deriving DecidableEq

/-- Receipt errors (`ReceiptError`). The error payloads that only carry
human-readable context are reduced to the reason string or dropped. -/
inductive ReceiptError where
  | invalidSignature
  | signatureVerificationFailed
  | invalidFormat (reason : String)
  | cryptographicError
  | serializationError
deriving DecidableEq

/-- Cryptographic execution receipt (`ExecutionReceipt`). -/
structure ExecutionReceipt where
  capsule_id : String
  input_commit : String
  output_commit : String
  exec_metrics : ExecMetrics
  node_id : String
  nonce : Nat
  signature : String
  timestamp : String
  version : String
deriving DecidableEq

/-- Ed25519 as used by the receipts module, as an abstract signature
scheme: `pubkey` is `SigningKey::verifying_key`, `pubkeyHex` is
`hex::encode(key.as_bytes())`, `sign` produces the 64 signature bytes of
`SigningKey::sign` and `verifyBytes` is `VerifyingKey::verify`. The four
laws are the properties of Ed25519 the receipts code relies on:
signatures are 64 bytes, bytes are bytes, a signature verifies under the
signer's public key, and never under a different public key. -/
structure SignatureScheme (Sk Pk : Type) where
  pubkey : Sk → Pk
  pubkeyHex : Pk → String
  sign : Sk → String → List Nat
  verifyBytes : Pk → String → List Nat → Bool
  sign_length : ∀ sk m, (sign sk m).length = 64
  sign_bytes_bound : ∀ sk m, ∀ b ∈ sign sk m, b < 256
  verify_sign_ok : ∀ sk m, verifyBytes (pubkey sk) m (sign sk m) = true
  verify_cross_key : ∀ sk pk m, pk ≠ pubkey sk → verifyBytes pk m (sign sk m) = false

/-- Fixed-width rendering of the fractional part of a thousandths value. -/
def pad3 (n : Nat) : String :=
  if n < 10 then "00" ++ toString n
  else if n < 100 then "0" ++ toString n
  else toString n

/-- Rendering of a thousandths fixed-point value, the model of the
`{:.3}` float formatting of `memory_mb`. -/
def fmtMilli (m : Nat) : String :=
  toString (m / 1000) ++ "." ++ pad3 (m % 1000)

/-- The payload that gets signed
(`ExecutionReceipt::create_signature_payload`). -/
def create_signature_payload (capsule_id input_commit output_commit : String)
    (metrics : ExecMetrics) (node_id : String) (nonce : Nat) (timestamp : String) :
    String :=
  "TENZIK_RECEIPT_V1\ncapsule_id:" ++ capsule_id ++
  "\ninput_commit:" ++ input_commit ++
  "\noutput_commit:" ++ output_commit ++
  "\nfuel_used:" ++ toString metrics.fuel_used ++
  "\nmemory_mb:" ++ fmtMilli metrics.memory_mb_milli ++
  "\nduration_ms:" ++ toString metrics.duration_ms ++
  "\nhost_calls:" ++ toString metrics.host_function_calls ++
  "\nnode_id:" ++ node_id ++
  "\nnonce:" ++ toString nonce ++
  "\ntimestamp:" ++ timestamp

/-- Create a new execution receipt (`ExecutionReceipt::new`). `blake3Hex`
stands for `blake3::hash(..).to_hex()` over raw bytes and `timestamp`
for the `current_timestamp_iso8601()` reading, both taken by the Rust
code from the outside world. -/
def ExecutionReceipt.new {Sk Pk : Type} (S : SignatureScheme Sk Pk)
    (blake3Hex : List Nat → String)
    (capsule_bytes input_bytes output_bytes : List Nat)
    (metrics : ExecMetrics) (signing_key : Sk) (nonce : Nat)
    (timestamp : String) : ExecutionReceipt :=
  let capsule_id := blake3Hex capsule_bytes
  let input_commit := blake3Hex input_bytes
  let output_commit := blake3Hex output_bytes
  let node_id := S.pubkeyHex (S.pubkey signing_key)
  let payload := create_signature_payload capsule_id input_commit output_commit
    metrics node_id nonce timestamp
  let signature := hexEncode (S.sign signing_key payload)
  { capsule_id := capsule_id
    input_commit := input_commit
    output_commit := output_commit
    exec_metrics := metrics
    node_id := node_id
    nonce := nonce
    signature := signature
    timestamp := timestamp
    version := "1.0.0" }

/-- Verify the receipt signature (`ExecutionReceipt::verify`): rebuild the
payload from the stored fields, hex-decode the signature, reconstruct the
64-byte signature, check it against the verifying key. -/
def ExecutionReceipt.verify {Sk Pk : Type} (S : SignatureScheme Sk Pk)
    (r : ExecutionReceipt) (verifying_key : Pk) : Except ReceiptError Bool :=
  let payload := create_signature_payload r.capsule_id r.input_commit r.output_commit
    r.exec_metrics r.node_id r.nonce r.timestamp
  match hexDecode r.signature with
  | none => .error (.invalidFormat "Invalid signature hex")
  | some signature_bytes =>
    if signature_bytes.length = 64 then
      .ok (S.verifyBytes verifying_key payload signature_bytes)
    else
      .error .cryptographicError

/-- The string hashed by `ExecutionReceipt::receipt_id`. -/
def receiptIdContent (r : ExecutionReceipt) : String :=
  r.capsule_id ++ ":" ++ r.input_commit ++ ":" ++ r.output_commit ++ ":" ++
    r.node_id ++ ":" ++ toString r.nonce

/-- Get the receipt ID (`ExecutionReceipt::receipt_id`); `blake3HexStr`
stands for `blake3::hash(content.as_bytes()).to_hex()`. -/
def ExecutionReceipt.receipt_id (blake3HexStr : String → String)
    (r : ExecutionReceipt) : String :=
  blake3HexStr (receiptIdContent r)


/-! ## Security sandbox (`crates/runtime/src/sandbox.rs`) -/

/-- Capability types that can be granted to WASM capsules (`Capability`). -/
inductive Capability where
  | Hash
  | Json
  | Base64
  | Time
  | Random
deriving DecidableEq

/-- Resource limits for WASM execution (`ResourceLimits`). -/
structure ResourceLimits where
  memory_limit_mb : Nat
  execution_time_ms : Nat
  fuel_limit : Nat
  capabilities : List Capability
deriving DecidableEq

/-- Default resource limits (`ResourceLimits::default`). -/
def ResourceLimits.default : ResourceLimits :=
  { memory_limit_mb := 32
    execution_time_ms := 1000
    fuel_limit := 1000000
    capabilities := [.Hash, .Json] }

/-- Check if a capability is granted (`ResourceLimits::has_capability`). -/
def ResourceLimits.has_capability (limits : ResourceLimits) (capability : Capability) :
    Bool :=
  limits.capabilities.contains capability

/-- The host functions registered for one capability in
`SecuritySandbox::generate_host_function_allowlist`. -/
def capabilityHostFunctions (capability : Capability) : List String :=
  match capability with
  | .Hash => ["hash_commit", "hash_verify"]
  | .Json => ["json_path", "json_extract"]
  | .Base64 => ["base64_encode", "base64_decode"]
  | .Time => ["time_now_ms", "time_iso8601"]
  | .Random => ["random_bytes", "random_u32"]

/-- Generate the host function allowlist based on granted capabilities
(`SecuritySandbox::generate_host_function_allowlist`): a map from
function name to the capability that exposes it. -/
def generate_host_function_allowlist (capabilities : List Capability) :
    List (String × Capability) :=
  capabilities.foldl
    (fun acc capability =>
      (capabilityHostFunctions capability).foldl
        (fun m f => insertA m f capability) acc)
    []

/-- Security sandbox for WASM execution (`SecuritySandbox`). The
append-only audit log does not influence any verified property and is
omitted. -/
structure SecuritySandbox where
  resource_limits : ResourceLimits
  host_function_allowlist : List (String × Capability)
deriving DecidableEq

/-- Create a new security sandbox (`SecuritySandbox::new`). -/
def SecuritySandbox.new (resource_limits : ResourceLimits) : SecuritySandbox :=
  { resource_limits := resource_limits
    host_function_allowlist :=
      generate_host_function_allowlist resource_limits.capabilities }

/-- Check if a host function is allowed
(`SecuritySandbox::allows_host_function`). -/
def SecuritySandbox.allows_host_function (s : SecuritySandbox)
    (function_name : String) : Bool :=
  containsA s.host_function_allowlist function_name

/-- Model of `str::starts_with` by character lists (all names involved
are ASCII, so byte and character indexing agree). -/
def strStartsWith (s p : String) : Bool :=
  p.data.isPrefixOf s.data

/-- Model of the byte slice `&name[5..]` by character lists. -/
def strDropChars (s : String) (n : Nat) : String :=
  String.mk (s.data.drop n)

/-- Check if an import is allowed (`SecuritySandbox::allows_import`): a
name starting with `env::` is stripped and checked against the host
function allowlist (early return); only otherwise is the name matched
against the system-import arms. -/
def SecuritySandbox.allows_import (s : SecuritySandbox) (name : String) : Bool :=
  if strStartsWith name "env::" then
    s.allows_host_function (strDropChars name 5)
  else
    match name with
    | "env::memory" => true
    | "env::abort" => true
    | _ => false

/-! ## Federation events and the DAG store (`crates/federation/src/storage.rs`) -/

/-- Types of events in the federation DAG (`EventType`). -/
inductive EventType where
  | Receipt
  | NodeAnnounce
  | NodeLeave
  | Heartbeat
deriving DecidableEq

/-- Information about a network node (`NodeInfo`). -/
structure NodeInfo where
  public_key : String
  address : String
  name : String
  version : String
deriving DecidableEq

/-- Content of different event types (`EventContent`). The `f64` field
`load` of `Heartbeat` is modelled in thousandths. -/
inductive EventContent where
  | Receipt (receipt : ExecutionReceipt)
  | NodeAnnounce (node_info : NodeInfo) (capabilities : List String)
  | NodeLeave (reason : String)
  | Heartbeat (load_milli : Nat) (uptime_seconds : Nat)
deriving DecidableEq

/-- A single event in the federation DAG (`Event`). -/
structure Event where
  id : String
  event_type : EventType
  content : EventContent
  timestamp : String
  parents : List String
  sequence : Nat
  node_id : String
  signature : String
deriving DecidableEq

/-- Storage-related errors (`StorageError`). -/
inductive StorageError where
  | databaseError
  | eventNotFound (event_id : String)
  | invalidEvent (reason : String)
  | serializationError
  | validationError (reason : String)
  | dagViolation (reason : String)
deriving DecidableEq

/-- Event DAG with persistent storage (`EventDAG`): the five sled
sub-stores. `events` maps event id to the event (the JSON round-trip of
the stored value is the identity and is elided), `parents` maps event id
to its parent list, `children` maps parent id to its child list, `tips`
maps tip id to its timestamp and `sequences` maps node id to the latest
sequence number. -/
structure EventDAG where
  events : List (String × Event)
  parents : List (String × List String)
  children : List (String × List String)
  tips : List (String × String)
  sequences : List (String × Nat)
deriving DecidableEq

/-- A freshly opened store: all five sub-stores empty. -/
def EventDAG.empty : EventDAG :=
  { events := [], parents := [], children := [], tips := [], sequences := [] }

deriving instance DecidableEq for Except

/-- Check if an event exists (`EventDAG::has_event`). -/
def EventDAG.has_event (dag : EventDAG) (event_id : String) : Bool :=
  containsA dag.events event_id

/-- Validate an event (`EventDAG::validate_event`): 64-character id,
128-character signature, parsable RFC 3339 timestamp. `tsOk` is the
chrono parser `DateTime::parse_from_rfc3339(..).is_ok()`. -/
def validate_event (tsOk : String → Bool) (event : Event) :
    Except StorageError Unit :=
  if event.id.length ≠ 64 then
    .error (.validationError "Event ID must be 64-character hex string")
  else if event.signature.length ≠ 128 then
    .error (.validationError "Signature must be 128-character hex string")
  else if ¬ tsOk event.timestamp then
    .error (.validationError "Invalid timestamp format")
  else
    .ok ()

/-- Get the latest sequence number for a node
(`EventDAG::get_node_sequence`): the stored value, `0` if absent. -/
def EventDAG.get_node_sequence (dag : EventDAG) (node_id : String) : Nat :=
  (lookupA dag.sequences node_id).getD 0

/-- Update sequence tracking for a node (`EventDAG::update_sequence`):
reject a sequence not strictly greater than the current one, else store
it. -/
def EventDAG.update_sequence (dag : EventDAG) (node_id : String) (sequence : Nat) :
    Except StorageError EventDAG :=
  if sequence ≤ dag.get_node_sequence node_id then
    .error (.validationError "Sequence is not greater than current for node")
  else
    .ok { dag with sequences := insertA dag.sequences node_id sequence }

/-- Update parent-child relationships (`EventDAG::update_relationships`):
store the parent list, then append the event to each parent's child
list. -/
def EventDAG.update_relationships (dag : EventDAG) (event : Event) : EventDAG :=
  event.parents.foldl
    (fun acc parent_id =>
      { acc with children :=
          (insertA acc.children parent_id
            (((lookupA acc.children parent_id).getD []) ++ [event.id])) })
    { dag with parents := insertA dag.parents event.id event.parents }

/-- Update tips (`EventDAG::update_tips`): remove the event's parents
from the tip store, insert the event itself with its timestamp. -/
def EventDAG.update_tips (dag : EventDAG) (event : Event) : EventDAG :=
  { (event.parents.foldl
      (fun acc parent_id => { acc with tips := removeA acc.tips parent_id })
      dag) with
    tips :=
      (insertA
        (event.parents.foldl
          (fun acc parent_id => { acc with tips := removeA acc.tips parent_id })
          dag).tips
        event.id event.timestamp) }

/-- Add an event to the DAG (`EventDAG::add_event`). The result pairs the
returned `Result` with the state of the store after the call (the Rust
method mutates `self`); every failing path returns before the first
write, so the state is unchanged on error. -/
def EventDAG.add_event (tsOk : String → Bool) (dag : EventDAG) (event : Event) :
    Except StorageError Unit × EventDAG :=
  match validate_event tsOk event with
  | .error e => (.error e, dag)
  | .ok () =>
    if dag.has_event event.id then
      (.ok (), dag)
    else
      match event.parents.find? (fun parent_id => ! dag.has_event parent_id) with
      | some parent_id =>
        (.error (.validationError ("Parent event not found: " ++ parent_id)), dag)
      | none =>
        match dag.update_sequence event.node_id event.sequence with
        | .error e => (.error e, dag)
        | .ok dag1 =>
          let dag2 := { dag1 with events := insertA dag1.events event.id event }
          (.ok (), (dag2.update_relationships event).update_tips event)

/-- Run a list of `add_event` calls in order, keeping the prior state
when a call fails (the caller keeps the store either way; this is also
exactly what `GossipProtocol::handle_events` does). -/
def EventDAG.runAdds (tsOk : String → Bool) (dag : EventDAG)
    (events : List Event) : EventDAG :=
  events.foldl (fun acc e => (EventDAG.add_event tsOk acc e).2) dag

/-- The sub-sequence of events of a run that `add_event` newly accepted:
the call succeeded and the event was not already stored (a duplicate
returns success without being newly accepted). -/
def EventDAG.acceptedNew (tsOk : String → Bool) :
    EventDAG → List Event → List Event
  | _, [] => []
  | dag, e :: es =>
    match EventDAG.add_event tsOk dag e with
    | (.ok _, dag') =>
      if dag.has_event e.id then EventDAG.acceptedNew tsOk dag' es
      else e :: EventDAG.acceptedNew tsOk dag' es
    | (.error _, dag') => EventDAG.acceptedNew tsOk dag' es

/-- The store state produced by a successful fresh insert
(proof-infrastructure name for the state built on the success path of
`add_event`). -/
def EventDAG.addNewState (dag : EventDAG) (event : Event) : EventDAG :=
  (({ dag with
      sequences := insertA dag.sequences event.node_id event.sequence,
      events := insertA dag.events event.id event }).update_relationships
    event).update_tips event

/-- Invariant of the DAG store maintained by `add_event` (used to derive
the tip characterisation): stored events sit under their own id, parents
of stored events are stored, and the tip store holds exactly the stored
events that no stored event lists as a parent. -/
def DAGInv (dag : EventDAG) : Prop :=
  (∀ kv ∈ dag.events, kv.2.id = kv.1) ∧
  (∀ kv ∈ dag.events, ∀ p ∈ kv.2.parents, dag.has_event p = true) ∧
  (∀ id, containsA dag.tips id = true ↔
    (dag.has_event id = true ∧ ∀ kv ∈ dag.events, id ∉ kv.2.parents))

/-! ## Gossip sync handler (`crates/federation/src/gossip.rs`) -/

/-- Gossip protocol configuration (`GossipConfig`). -/
structure GossipConfig where
  sync_interval_ms : Nat
  max_events_per_sync : Nat
  peer_timeout_ms : Nat
  max_concurrent_syncs : Nat
  ping_interval_ms : Nat
deriving DecidableEq

/-- Insertion into a list sorted by ascending timestamp. -/
def insertByTimestamp (e : Event) : List Event → List Event
  | [] => [e]
  | x :: xs =>
    if e.timestamp ≤ x.timestamp then e :: x :: xs
    else x :: insertByTimestamp e xs

/-- Sorting by ascending timestamp (model of
`events.sort_by(|a, b| a.timestamp.cmp(&b.timestamp))`). -/
def sortByTimestamp (l : List Event) : List Event :=
  l.foldr insertByTimestamp []

/-- Get events since a specific event id
(`EventDAG::get_events_since`): the source returns **all** stored events
sorted by timestamp in both branches — the `since`-based filtering is an
unimplemented TODO, the `Some` branch recurses with `None`. -/
def EventDAG.get_events_since (dag : EventDAG) (since : Option String) :
    List Event :=
  match since with
  | none => sortByTimestamp (dag.events.map (fun kv => kv.2))
  | some _ => sortByTimestamp (dag.events.map (fun kv => kv.2))

/-- Handle a sync request from a peer
(`GossipProtocol::handle_sync_request`): reply with the stored events
truncated to `min(limit, max_events_per_sync)` and
`has_more = events_to_send.len() >= limit`. -/
def handle_sync_request (config : GossipConfig) (dag : EventDAG)
    (since : Option String) (limit : Nat) : List Event × Bool :=
  let events_to_send :=
    (dag.get_events_since since).take (min limit config.max_events_per_sync)
  (events_to_send, decide (events_to_send.length ≥ limit))

/-! ## Execution metrics collection (`crates/runtime/src/execution.rs`) -/

/-- The metrics value built at the end of `WasmRuntime::execute_module`:
`fuel_used` from the fuel accounting, `memory_mb` from the linear memory
size, the elapsed duration, and `host_function_calls` hardcoded to `0`
(the source carries a `TODO: Track from sandbox access log` comment and
ignores the number of host function calls actually made, which is the
`host_calls_made` argument here). -/
def execute_module_metrics (enable_fuel : Bool)
    (fuel_limit fuel_remaining memory_data_size duration_ms
      host_calls_made : Nat) : ExecMetrics :=
  { fuel_used := if enable_fuel then fuel_limit - fuel_remaining else 0
    memory_mb_milli := memory_data_size * 1000 / (1024 * 1024)
    duration_ms := duration_ms
    host_function_calls := 0 }

/-! ## Capsule validation (`crates/runtime/src/validation.rs`) -/

/-- Validation errors (`ValidationError`). -/
inductive ValidationError where
  | SizeExceeded (size max_size : Nat)
  | MissingRequiredExport (exportName : String)
  | UnauthorizedImport (importName : String)
  | InvalidModule (reason : String)
  | CompilationFailed (reason : String)
deriving DecidableEq

/-- Validation result (`ValidationResult`). The derived `f64` display
field `size_kb` is determined by `size_bytes` and is elided. -/
structure ValidationResult where
  is_valid : Bool
  size_bytes : Nat
  (exports imports warnings : List String)
  errors : List ValidationError
deriving DecidableEq

/-- A successful validation result (`ValidationResult::success`). -/
def ValidationResult.success (size_bytes : Nat)
    (exports imports : List String) : ValidationResult :=
  { is_valid := true, size_bytes := size_bytes, exports := exports, imports := imports,
    warnings := [], errors := [] }

/-- A failed validation result (`ValidationResult::failure`): empty
exports, imports and warnings. -/
def ValidationResult.failure (size_bytes : Nat)
    (errors : List ValidationError) : ValidationResult :=
  { is_valid := false, size_bytes := size_bytes, exports := [], imports := [],
    warnings := [], errors := errors }

/-- The exports and imports wasmtime reports for a compiled module; each
entry of `imports` already carries the `"{module}::{name}"` formatting
of `extract_imports`. -/
structure ModuleInfo where
  (exports imports : List String)
deriving DecidableEq

/-- Validator configuration (`ValidatorConfig` /
the fields of `WasmValidator`). -/
structure ValidatorConfig where
  max_size_bytes : Nat
  strict_imports : Bool
  require_standard_exports : Bool
deriving DecidableEq

/-- Required exports for Tenzik capsules (`REQUIRED_EXPORTS`). -/
def REQUIRED_EXPORTS : List String := ["run", "memory"]

/-- Allowed import prefixes for security (`ALLOWED_IMPORT_PREFIXES`). -/
def ALLOWED_IMPORT_PREFIXES : List String := ["env::"]

/-- Check if an import is allowed based on the allowlist
(`WasmValidator::is_import_allowed`). -/
def is_import_allowed (imp : String) : Bool :=
  ALLOWED_IMPORT_PREFIXES.any (fun p => strStartsWith imp p)

/-- The `MissingRequiredExport` errors accumulated by the
required-exports loop of `WasmValidator::validate` (empty when
`require_standard_exports` is off). -/
def export_errors_of (cfg : ValidatorConfig) (module_info : ModuleInfo) :
    List ValidationError :=
  if cfg.require_standard_exports then
    (REQUIRED_EXPORTS.filter (fun r => ! module_info.exports.contains r)).map
      (fun r => ValidationError.MissingRequiredExport r)
  else []

/-- The `UnauthorizedImport` errors accumulated by the import-allowlist
loop of `WasmValidator::validate` (empty when `strict_imports` is
off). -/
def import_errors_of (cfg : ValidatorConfig) (module_info : ModuleInfo) :
    List ValidationError :=
  if cfg.strict_imports then
    (module_info.imports.filter (fun i => ! is_import_allowed i)).map
      (fun i => ValidationError.UnauthorizedImport i)
  else []

/-- All errors accumulated by `WasmValidator::validate` after size and
compilation have passed: export errors first, then import errors (the
loop order of the source). -/
def validationErrors (cfg : ValidatorConfig) (module_info : ModuleInfo) :
    List ValidationError :=
  export_errors_of cfg module_info ++ import_errors_of cfg module_info

/-- Validate a WASM capsule from bytes (`WasmValidator::validate`).
`from_binary` is wasmtime's `Module::from_binary` reduced to the export
and import listings the validator reads off the compiled module (`none`
when compilation fails). -/
def WasmValidator.validate (from_binary : List Nat → Option ModuleInfo)
    (cfg : ValidatorConfig) (wasm_bytes : List Nat) : ValidationResult :=
  let size_bytes := wasm_bytes.length
  if size_bytes > cfg.max_size_bytes then
    ValidationResult.failure size_bytes
      [.SizeExceeded size_bytes cfg.max_size_bytes]
  else
    let warnings :=
      if size_bytes > cfg.max_size_bytes * 80 / 100 then
        ["Capsule size is approaching limit"]
      else []
    match from_binary wasm_bytes with
    | none =>
      ValidationResult.failure size_bytes [.CompilationFailed "from_binary"]
    | some module_info =>
      if (validationErrors cfg module_info).isEmpty then
        { ValidationResult.success size_bytes
            module_info.exports module_info.imports with
          warnings := warnings }
      else
        ValidationResult.failure size_bytes (validationErrors cfg module_info)

/-! ## Concrete instances used by the closed witness theorems -/

/-- A structurally valid event with no parents (64-character id,
128-character signature), sequence 1 from node `n`. -/
def eventW1 : Event :=
  { id := String.mk (List.replicate 64 'a')
    event_type := .NodeLeave
    content := .NodeLeave "bye"
    timestamp := "2025-01-01T00:00:00Z"
    parents := []
    sequence := 1
    node_id := "n"
    signature := String.mk (List.replicate 128 's') }

/-- A structurally valid event whose parent is `eventW1`, sequence 2 from
node `n`. -/
def eventW2 : Event :=
  { id := String.mk (List.replicate 64 'b')
    event_type := .NodeLeave
    content := .NodeLeave "bye"
    timestamp := "2025-01-01T00:00:01Z"
    parents := [String.mk (List.replicate 64 'a')]
    sequence := 2
    node_id := "n"
    signature := String.mk (List.replicate 128 's') }

/-- A structurally valid event from node `n` reusing sequence 1 (stale
sequence, fresh id). -/
def eventWdup : Event :=
  { id := String.mk (List.replicate 64 'c')
    event_type := .NodeLeave
    content := .NodeLeave "bye"
    timestamp := "2025-01-01T00:00:02Z"
    parents := []
    sequence := 1
    node_id := "n"
    signature := String.mk (List.replicate 128 's') }

/-! ## Concrete instances used by the closed witness theorems (receipts) -/

/-- A small concrete signature scheme satisfying the laws of
`SignatureScheme`, used to instantiate the universally quantified
receipt theorems on concrete inputs: keys are bytes, a signature is the
message length followed by 63 copies of the key. -/
def toyScheme : SignatureScheme (Fin 256) (Fin 256) where
  pubkey := fun sk => sk
  pubkeyHex := fun pk => hexEncode [pk.val]
  sign := fun sk m => (m.length % 256) :: List.replicate 63 sk.val
  verifyBytes := fun pk m s => decide (s = (m.length % 256) :: List.replicate 63 pk.val)
  sign_length := by intro sk m; simp
  sign_bytes_bound := by
    intro sk m b hb
    simp only [List.mem_cons, List.mem_replicate] at hb
    rcases hb with h | ⟨_, h⟩
    · subst h; exact Nat.mod_lt _ (by omega)
    · subst h; exact sk.isLt
  verify_sign_ok := by intro sk m; simp
  verify_cross_key := by
    intro sk pk m hne
    simp only [decide_eq_false_iff_not]
    intro hc
    have h2 : List.replicate 63 sk.val = List.replicate 63 pk.val :=
      (List.cons.injEq _ _ _ _ ▸ hc : _ ∧ _).2
    have h3 : sk.val = pk.val := by
      have := congrArg List.head? h2
      simpa [List.head?_replicate] using this
    exact hne (Fin.ext h3.symm)

/-- A concrete execution receipt for the witness of the receipt-ID claim. -/
def receiptA : ExecutionReceipt :=
  { capsule_id := "c1", input_commit := "i1", output_commit := "o1",
    exec_metrics := ⟨1000, 2500, 50, 3⟩, node_id := "n1", nonce := 42,
    signature := "sigA", timestamp := "2025-01-01T00:00:00Z", version := "1.0.0" }

/-- A second receipt agreeing with `receiptA` on
`(capsule_id, input_commit, output_commit, node_id, nonce)` but differing
in metrics, signature and timestamp. -/
def receiptB : ExecutionReceipt :=
  { capsule_id := "c1", input_commit := "i1", output_commit := "o1",
    exec_metrics := ⟨7, 0, 125, 9⟩, node_id := "n1", nonce := 42,
    signature := "sigB", timestamp := "2025-06-30T12:00:00Z", version := "1.0.0" }

/-! ## Lemmas about the store and codec primitives -/

@[simp] theorem lookupA_nil {α : Type} (k : String) :
    lookupA ([] : List (String × α)) k = none := rfl

theorem lookupA_insertA {α : Type} (l : List (String × α)) (k k' : String) (v : α) :
    lookupA (insertA l k v) k' = if k = k' then some v else lookupA l k' := by
  induction l with
  | nil => by_cases h : k = k' <;> simp [insertA, lookupA, h]
  | cons hd tl ih =>
    by_cases hhd : hd.1 = k
    · by_cases h : k = k' <;> simp [insertA, lookupA, hhd, h]
    · by_cases h : hd.1 = k'
      · have hkk : ¬ k = k' := fun hc => hhd (by rw [hc, h])
        have hkk' : ¬ k' = k := fun hc => hkk hc.symm
        simp [insertA, lookupA, hhd, h, hkk, hkk']
      · simp [insertA, lookupA, hhd, h, ih]

theorem lookupA_removeA {α : Type} (l : List (String × α)) (k k' : String) :
    lookupA (removeA l k) k' = if k = k' then none else lookupA l k' := by
  induction l with
  | nil => by_cases h : k = k' <;> simp [removeA, lookupA, h]
  | cons hd tl ih =>
    by_cases hhd : hd.1 = k
    · by_cases h : k = k'
      · subst h
        simp only [removeA, hhd, if_true]
        simpa using ih
      · have hne : ¬ hd.1 = k' := fun hc => h (by rw [← hhd, hc])
        simp [removeA, lookupA, hhd, h, hne, ih]
    · by_cases h : hd.1 = k'
      · have hkk : ¬ k = k' := fun hc => hhd (by rw [hc, h])
        have hkk' : ¬ k' = k := fun hc => hkk hc.symm
        simp [removeA, lookupA, hhd, h, hkk, hkk']
      · simp [removeA, lookupA, hhd, h, ih]

theorem insertA_of_lookup_none {α : Type} (l : List (String × α)) (k : String) (v : α)
    (h : lookupA l k = none) : insertA l k v = l ++ [(k, v)] := by
  induction l with
  | nil => rfl
  | cons hd tl ih =>
    by_cases hhd : hd.1 = k
    · simp [lookupA, hhd] at h
    · simp only [lookupA, hhd, if_neg, ite_false] at h
      simp [insertA, hhd, ih h]

theorem lookupA_append_right {α : Type} (l : List (String × α)) (k k' : String) (v : α) :
    lookupA (l ++ [(k, v)]) k' =
      (lookupA l k').orElse (fun _ => if k = k' then some v else none) := by
  induction l with
  | nil => by_cases h : k = k' <;> simp [lookupA, h, Option.orElse]
  | cons hd tl ih =>
    by_cases h : hd.1 = k' <;> simp [lookupA, h, ih, Option.orElse]

theorem hexDigitVal_hexDigitChar : ∀ n < 16, hexDigitVal (hexDigitChar n) = some n := by
  decide

theorem hexDecode_hexEncode (bs : List Nat) (h : ∀ b ∈ bs, b < 256) :
    hexDecode (hexEncode bs) = some bs := by
  unfold hexDecode hexEncode
  induction bs with
  | nil => rfl
  | cons b tl ih =>
    have hb : b < 256 := h b (by simp)
    have hdiv : b / 16 < 16 := Nat.div_lt_of_lt_mul (by omega)
    have hmod : b % 16 < 16 := Nat.mod_lt _ (by omega)
    have htl : hexDecodeChars ((tl.map hexEncodeByte).flatten) = some tl := by
      simpa using ih (fun x hx => h x (by simp [hx]))
    simp only [List.map_cons, List.flatten_cons, hexEncodeByte, List.cons_append, List.nil_append]
    simp only [hexDecodeChars, hexDigitVal_hexDigitChar _ hdiv,
      hexDigitVal_hexDigitChar _ hmod, htl]
    have : 16 * (b / 16) + b % 16 = b := by omega
    simp [this]

theorem hexEncode_length (bs : List Nat) : (hexEncode bs).length = 2 * bs.length := by
  unfold hexEncode
  induction bs with
  | nil => rfl
  | cons b tl ih =>
    simp only [String.length, String.mk] at *
    simp only [List.map_cons, List.flatten_cons, hexEncodeByte, List.cons_append, List.nil_append,
      List.length_cons] at *
    omega

/-! ## Claim theorems: receipts -/

/-- C1: for every capsule bytes, input bytes, output bytes, metrics value,
nonce and Ed25519 signing key, the receipt built by
`ExecutionReceipt::new` verifies as `Ok(true)` under that key's verifying
key, and verifying the same receipt with the verifying key of any
different key returns `Ok(false)`. -/
theorem claim_C1 {Sk Pk : Type} (S : SignatureScheme Sk Pk)
    (blake3Hex : List Nat → String)
    (capsule_bytes input_bytes output_bytes : List Nat)
    (metrics : ExecMetrics) (signing_key : Sk) (nonce : Nat) (timestamp : String)
    (pk2 : Pk) (hpk : pk2 ≠ S.pubkey signing_key) :
    (ExecutionReceipt.new S blake3Hex capsule_bytes input_bytes output_bytes
        metrics signing_key nonce timestamp).verify S (S.pubkey signing_key) =
      .ok true ∧
    (ExecutionReceipt.new S blake3Hex capsule_bytes input_bytes output_bytes
        metrics signing_key nonce timestamp).verify S pk2 = .ok false := by
  have hdec := hexDecode_hexEncode _ (S.sign_bytes_bound signing_key
    (create_signature_payload (blake3Hex capsule_bytes) (blake3Hex input_bytes)
      (blake3Hex output_bytes) metrics (S.pubkeyHex (S.pubkey signing_key))
      nonce timestamp))
  constructor
  · simp only [ExecutionReceipt.new, ExecutionReceipt.verify, hdec]
    simp [S.sign_length, S.verify_sign_ok]
  · simp only [ExecutionReceipt.new, ExecutionReceipt.verify, hdec]
    simp [S.sign_length, S.verify_cross_key _ _ _ hpk]

/-- Witness for C1 at concrete inputs: key `5`, wrong key `6`, concrete
bytes, metrics, nonce and timestamp, under the concrete `toyScheme`. -/
theorem claim_C1_witness :
    ((ExecutionReceipt.new toyScheme (fun _ => "deadbeef") [1] [2] [3]
        ⟨1000, 2500, 50, 3⟩ (5 : Fin 256) 7 "2025-01-01T00:00:00Z").verify toyScheme
        (toyScheme.pubkey (5 : Fin 256)) = .ok true) ∧
    ((ExecutionReceipt.new toyScheme (fun _ => "deadbeef") [1] [2] [3]
        ⟨1000, 2500, 50, 3⟩ (5 : Fin 256) 7 "2025-01-01T00:00:00Z").verify toyScheme
        ((6 : Fin 256)) = .ok false) :=
  claim_C1 toyScheme (fun _ => "deadbeef") [1] [2] [3] ⟨1000, 2500, 50, 3⟩ 5 7
    "2025-01-01T00:00:00Z" 6 (by decide)

/-- C2 (refuting evaluation): `allows_import` is claimed to return true
for `env::memory` and `env::abort` always. In the source the two match
arms `"env::memory" => true` and `"env::abort" => true` are unreachable:
any name starting with `env::` takes the early return through the host
function allowlist, which contains neither `memory` nor `abort`. The
repository's own test `test_import_validation` asserts
`allows_import("env::memory")` and `allows_import("env::abort")`, so the
code contradicts its own test suite. This theorem evaluates the embedded
code on the failing inputs for a sandbox granting only `Hash`. -/
theorem claim_C2 :
    (SecuritySandbox.new
      { memory_limit_mb := 32, execution_time_ms := 1000, fuel_limit := 1000000,
        capabilities := [.Hash] }).allows_import "env::memory" = false ∧
    (SecuritySandbox.new
      { memory_limit_mb := 32, execution_time_ms := 1000, fuel_limit := 1000000,
        capabilities := [.Hash] }).allows_import "env::abort" = false ∧
    (SecuritySandbox.new
      { memory_limit_mb := 32, execution_time_ms := 1000, fuel_limit := 1000000,
        capabilities := [.Hash] }).allows_import "env::hash_commit" = true ∧
    (SecuritySandbox.new
      { memory_limit_mb := 32, execution_time_ms := 1000, fuel_limit := 1000000,
        capabilities := [.Hash] }).allows_import "unknown::function" = false := by
  decide

/-- C7: `receipt_id()` equals the BLAKE3 hex digest of the string
`"{capsule_id}:{input_commit}:{output_commit}:{node_id}:{nonce}"`;
consequently any two receipts agreeing on those five fields have equal
`receipt_id()` regardless of their timestamp, metrics or signature. -/
theorem claim_C7 (blake3HexStr : String → String) (r1 r2 : ExecutionReceipt)
    (h1 : r1.capsule_id = r2.capsule_id) (h2 : r1.input_commit = r2.input_commit)
    (h3 : r1.output_commit = r2.output_commit) (h4 : r1.node_id = r2.node_id)
    (h5 : r1.nonce = r2.nonce) :
    ExecutionReceipt.receipt_id blake3HexStr r1 =
      blake3HexStr (r1.capsule_id ++ ":" ++ r1.input_commit ++ ":" ++
        r1.output_commit ++ ":" ++ r1.node_id ++ ":" ++ toString r1.nonce) ∧
    ExecutionReceipt.receipt_id blake3HexStr r1 =
      ExecutionReceipt.receipt_id blake3HexStr r2 := by
  refine ⟨rfl, ?_⟩
  unfold ExecutionReceipt.receipt_id receiptIdContent
  rw [h1, h2, h3, h4, h5]

/-- Witness for C7: `receiptA` and `receiptB` agree on the five identity
fields but differ in metrics, signature and timestamp; their receipt IDs
agree. -/
theorem claim_C7_witness :
    ExecutionReceipt.receipt_id (fun s => s) receiptA =
      (receiptA.capsule_id ++ ":" ++ receiptA.input_commit ++ ":" ++
        receiptA.output_commit ++ ":" ++ receiptA.node_id ++ ":" ++
        toString receiptA.nonce) ∧
    ExecutionReceipt.receipt_id (fun s => s) receiptA =
      ExecutionReceipt.receipt_id (fun s => s) receiptB :=
  claim_C7 (fun s => s) receiptA receiptB rfl rfl rfl rfl rfl

/-! ## Lemmas about the DAG store operations -/

theorem tipsRemoveFold (l : List String) (d : EventDAG) :
    (l.foldl (fun acc parent_id => { acc with tips := removeA acc.tips parent_id }) d) =
      { d with tips := l.foldl (fun t parent_id => removeA t parent_id) d.tips } := by
  induction l generalizing d with
  | nil => rfl
  | cons hd tl ih =>
    simp only [List.foldl]
    rw [ih]

theorem childrenFold_preserves (l : List String) (eid : String) (d : EventDAG) :
    ((l.foldl (fun acc parent_id =>
        { acc with children :=
            (insertA acc.children parent_id
              (((lookupA acc.children parent_id).getD []) ++ [eid])) }) d)).events =
      d.events ∧
    ((l.foldl (fun acc parent_id =>
        { acc with children :=
            (insertA acc.children parent_id
              (((lookupA acc.children parent_id).getD []) ++ [eid])) }) d)).tips =
      d.tips ∧
    ((l.foldl (fun acc parent_id =>
        { acc with children :=
            (insertA acc.children parent_id
              (((lookupA acc.children parent_id).getD []) ++ [eid])) }) d)).sequences =
      d.sequences := by
  induction l generalizing d with
  | nil => exact ⟨rfl, rfl, rfl⟩
  | cons hd tl ih => simpa using ih _

theorem update_relationships_preserves (dag : EventDAG) (event : Event) :
    (dag.update_relationships event).events = dag.events ∧
    (dag.update_relationships event).tips = dag.tips ∧
    (dag.update_relationships event).sequences = dag.sequences := by
  unfold EventDAG.update_relationships
  exact childrenFold_preserves event.parents event.id _

theorem update_tips_eq (dag : EventDAG) (event : Event) :
    dag.update_tips event =
      { dag with tips :=
          (insertA (event.parents.foldl (fun t p => removeA t p) dag.tips)
            event.id event.timestamp) } := by
  unfold EventDAG.update_tips
  rw [tipsRemoveFold]

theorem addNewState_fields (dag : EventDAG) (event : Event) :
    (EventDAG.addNewState dag event).events = insertA dag.events event.id event ∧
    (EventDAG.addNewState dag event).sequences =
      insertA dag.sequences event.node_id event.sequence ∧
    (EventDAG.addNewState dag event).tips =
      insertA (event.parents.foldl (fun t p => removeA t p) dag.tips)
        event.id event.timestamp := by
  unfold EventDAG.addNewState
  rw [update_tips_eq]
  have h := update_relationships_preserves
    { dag with
      sequences := insertA dag.sequences event.node_id event.sequence,
      events := insertA dag.events event.id event } event
  exact ⟨h.1, h.2.2, by rw [h.2.1]⟩

theorem validate_event_error_shape (tsOk : String → Bool) (event : Event)
    (err : StorageError) (h : validate_event tsOk event = .error err) :
    ∃ reason, err = .validationError reason := by
  unfold validate_event at h
  split at h
  · exact ⟨_, (Except.error.inj h).symm⟩
  · split at h
    · exact ⟨_, (Except.error.inj h).symm⟩
    · split at h
      · exact ⟨_, (Except.error.inj h).symm⟩
      · exact absurd h (by simp)

theorem add_event_cases (tsOk : String → Bool) (dag : EventDAG) (event : Event) :
    (∃ err, EventDAG.add_event tsOk dag event = (.error err, dag)) ∨
    (dag.has_event event.id = true ∧
      EventDAG.add_event tsOk dag event = (.ok (), dag)) ∨
    (dag.has_event event.id = false ∧
      dag.get_node_sequence event.node_id < event.sequence ∧
      (∀ p ∈ event.parents, dag.has_event p = true) ∧
      validate_event tsOk event = .ok () ∧
      EventDAG.add_event tsOk dag event = (.ok (), EventDAG.addNewState dag event)) := by
  rcases hval : validate_event tsOk event with err | u
  · exact .inl ⟨err, by simp [EventDAG.add_event, hval]⟩
  · cases u
    by_cases hhas : dag.has_event event.id
    · exact .inr (.inl ⟨hhas, by simp [EventDAG.add_event, hval, hhas]⟩)
    · rcases hfind : event.parents.find? (fun parent_id => ! dag.has_event parent_id)
        with _ | p
      · by_cases hseq : event.sequence ≤ dag.get_node_sequence event.node_id
        · refine .inl
            ⟨.validationError "Sequence is not greater than current for node", ?_⟩
          simp [EventDAG.add_event, hval, hhas, hfind, EventDAG.update_sequence, hseq]
        · refine .inr (.inr ⟨by simpa using hhas, by omega, ?_, rfl, ?_⟩)
          · intro p hp
            have := List.find?_eq_none.mp hfind p hp
            simpa using this
          · simp only [EventDAG.add_event, hval, Bool.false_eq_true,
              eq_self_iff_true]
            rw [if_neg hhas]
            simp only [hfind, EventDAG.update_sequence, if_neg hseq]
            rfl
      · refine .inl ⟨.validationError ("Parent event not found: " ++ p), ?_⟩
        simp [EventDAG.add_event, hval, hhas, hfind]

theorem add_event_error_state (tsOk : String → Bool) (dag : EventDAG) (event : Event)
    (err : StorageError) (h : (EventDAG.add_event tsOk dag event).1 = .error err) :
    (EventDAG.add_event tsOk dag event).2 = dag := by
  rcases add_event_cases tsOk dag event with ⟨e, heq⟩ | ⟨_, heq⟩ | ⟨_, _, _, _, heq⟩ <;>
    simp [heq] at h ⊢

theorem addNewState_get_node_sequence (dag : EventDAG) (event : Event) (node : String) :
    (EventDAG.addNewState dag event).get_node_sequence node =
      if event.node_id = node then event.sequence
      else dag.get_node_sequence node := by
  unfold EventDAG.get_node_sequence
  rw [(addNewState_fields dag event).2.1, lookupA_insertA]
  split <;> rfl

theorem accepted_chain (tsOk : String → Bool) (node : String) (events : List Event) :
    ∀ dag : EventDAG,
      List.Chain (· < ·) (dag.get_node_sequence node)
        (((EventDAG.acceptedNew tsOk dag events).filter
          (fun e => e.node_id == node)).map (fun e => e.sequence)) := by
  induction events with
  | nil =>
    intro dag
    simp [EventDAG.acceptedNew]
  | cons e es ih =>
    intro dag
    rcases add_event_cases tsOk dag e with
      ⟨err, heq⟩ | ⟨hhas, heq⟩ | ⟨hhas, hseq, hpar, hval, heq⟩
    · simp only [EventDAG.acceptedNew, heq]
      exact ih dag
    · simp only [EventDAG.acceptedNew, heq, hhas, if_true]
      exact ih dag
    · simp only [EventDAG.acceptedNew, heq, hhas]
      rw [if_neg (by simp [hhas])]
      by_cases hnode : e.node_id = node
      · subst hnode
        simp only [List.filter_cons, beq_self_eq_true, if_true, List.map_cons]
        refine List.Chain.cons hseq ?_
        have hS := addNewState_get_node_sequence dag e e.node_id
        rw [if_pos rfl] at hS
        have h2 := ih (EventDAG.addNewState dag e)
        rwa [hS] at h2
      · have hb : (e.node_id == node) = false := by simp [hnode]
        simp only [List.filter_cons, hb, Bool.false_eq_true, if_false]
        have hS := addNewState_get_node_sequence dag e node
        rw [if_neg hnode] at hS
        have h2 := ih (EventDAG.addNewState dag e)
        rwa [hS] at h2

/-! ## Claim theorems: DAG store -/

/-- C3: for every node id, over any sequence of `add_event` calls, the
sequence numbers of newly accepted (non-duplicate) events from that node
are strictly increasing in insertion order; an event whose sequence is at
most the node's currently stored maximum (0 if absent) and that is not
already stored is rejected with a `ValidationError`. -/
theorem claim_C3 (tsOk : String → Bool) (events : List Event) (node_id : String) :
    List.Pairwise (· < ·)
      (((EventDAG.acceptedNew tsOk EventDAG.empty events).filter
          (fun e => e.node_id == node_id)).map (fun e => e.sequence)) ∧
    (∀ (dag : EventDAG) (e : Event), dag.has_event e.id = false →
      e.sequence ≤ dag.get_node_sequence e.node_id →
      ∃ reason, (EventDAG.add_event tsOk dag e).1 = .error (.validationError reason)) := by
  constructor
  · have hchain := accepted_chain tsOk node_id events EventDAG.empty
    exact (List.chain_iff_pairwise.mp hchain).of_cons
  · intro dag e hnew hle
    rcases hval : validate_event tsOk e with err | u
    · rcases validate_event_error_shape tsOk e err hval with ⟨reason, hr⟩
      exact ⟨reason, by simp [EventDAG.add_event, hval, hr]⟩
    · cases u
      rcases hfind : e.parents.find? (fun parent_id => ! dag.has_event parent_id)
        with _ | p
      · refine ⟨"Sequence is not greater than current for node", ?_⟩
        simp [EventDAG.add_event, hval, hnew, hfind, EventDAG.update_sequence, hle]
      · exact ⟨"Parent event not found: " ++ p,
          by simp [EventDAG.add_event, hval, hnew, hfind]⟩

set_option maxRecDepth 40000 in
/-- Witness for C3: the run `[eventW1, eventW2]` (sequences 1, 2 from
node `n`) yields a strictly increasing accepted-sequence list, and adding
`eventWdup` (sequence 1 again) to the resulting store is rejected with a
`ValidationError`. -/
theorem claim_C3_witness :
    List.Pairwise (· < ·)
      (((EventDAG.acceptedNew (fun _ => true) EventDAG.empty [eventW1, eventW2]).filter
          (fun e => e.node_id == "n")).map (fun e => e.sequence)) ∧
    (∃ reason,
      (EventDAG.add_event (fun _ => true)
        (EventDAG.runAdds (fun _ => true) EventDAG.empty [eventW1]) eventWdup).1 =
      .error (.validationError reason)) :=
  ⟨(claim_C3 (fun _ => true) [eventW1, eventW2] "n").1,
   (claim_C3 (fun _ => true) [eventW1, eventW2] "n").2
     (EventDAG.runAdds (fun _ => true) EventDAG.empty [eventW1]) eventWdup
     (by decide) (by decide)⟩

/-- C4: an event that is not yet stored and has a parent reference that
does not resolve in the `events` sub-store is rejected with a
`ValidationError`, and the entire store is returned unchanged. -/
theorem claim_C4 (tsOk : String → Bool) (dag : EventDAG) (e : Event)
    (hnew : dag.has_event e.id = false)
    (hdangling : ∃ p ∈ e.parents, dag.has_event p = false) :
    ∃ reason,
      EventDAG.add_event tsOk dag e = (.error (.validationError reason), dag) := by
  rcases hval : validate_event tsOk e with err | u
  · rcases validate_event_error_shape tsOk e err hval with ⟨reason, hr⟩
    exact ⟨reason, by simp [EventDAG.add_event, hval, hr]⟩
  · cases u
    rcases hfind : e.parents.find? (fun parent_id => ! dag.has_event parent_id)
      with _ | p
    · exfalso
      rcases hdangling with ⟨p, hp, hpf⟩
      have := List.find?_eq_none.mp hfind p hp
      simp [hpf] at this
    · exact ⟨"Parent event not found: " ++ p,
        by simp [EventDAG.add_event, hval, hnew, hfind]⟩

set_option maxRecDepth 40000 in
/-- Witness for C4: inserting `eventW2` (whose parent `eventW1` is
absent) into the empty store is rejected with a `ValidationError` and
leaves the store empty. -/
theorem claim_C4_witness :
    ∃ reason,
      EventDAG.add_event (fun _ => true) EventDAG.empty eventW2 =
        (.error (.validationError reason), EventDAG.empty) :=
  claim_C4 (fun _ => true) EventDAG.empty eventW2 (by decide) (by decide)

/-- C6: if `add_event(e)` succeeds and produces store state `st`, then a
second `add_event(e)` on `st` also returns success and leaves the state
exactly `st`. -/
theorem claim_C6 (tsOk : String → Bool) (dag : EventDAG) (e : Event)
    (st : EventDAG) (h : EventDAG.add_event tsOk dag e = (.ok (), st)) :
    EventDAG.add_event tsOk st e = (.ok (), st) := by
  rcases add_event_cases tsOk dag e with ⟨err, heq⟩ | ⟨hhas, heq⟩ | ⟨hhas, _, _, hval, heq⟩
  · rw [heq] at h
    exact absurd (congrArg Prod.fst h) (by simp)
  · rw [heq] at h
    have hst : st = dag := (Prod.mk.injEq _ _ _ _ ▸ h :
      ((Except.ok () : Except StorageError Unit) = .ok ()) ∧ dag = st).2.symm
    subst hst
    exact heq
  · rw [heq] at h
    have hst : st = EventDAG.addNewState dag e := (Prod.mk.injEq _ _ _ _ ▸ h :
      ((Except.ok () : Except StorageError Unit) = .ok ()) ∧
        EventDAG.addNewState dag e = st).2.symm
    subst hst
    have hvalid : validate_event tsOk e = .ok () := hval
    have hhas2 : (EventDAG.addNewState dag e).has_event e.id = true := by
      simp [EventDAG.has_event, containsA, (addNewState_fields dag e).1,
        lookupA_insertA]
    simp [EventDAG.add_event, hvalid, hhas2]

set_option maxRecDepth 40000 in
/-- Witness for C6: after successfully inserting `eventW1` into the empty
store, inserting it again returns success and the identical state. -/
theorem claim_C6_witness :
    EventDAG.add_event (fun _ => true)
        ((EventDAG.add_event (fun _ => true) EventDAG.empty eventW1).2) eventW1 =
      (.ok (), (EventDAG.add_event (fun _ => true) EventDAG.empty eventW1).2) :=
  claim_C6 (fun _ => true) EventDAG.empty eventW1 _ (by decide)

/-! ## Tip-set invariant and claim C5 -/

theorem lookupA_removeFold {α : Type} (ks : List String) (t : List (String × α))
    (k : String) :
    lookupA (ks.foldl (fun t' p => removeA t' p) t) k =
      if k ∈ ks then none else lookupA t k := by
  induction ks generalizing t with
  | nil => simp
  | cons hd tl ih =>
    simp only [List.foldl]
    rw [ih, lookupA_removeA]
    by_cases hk : k ∈ tl
    · simp [hk]
    · by_cases hh : hd = k
      · simp [hh]
      · have hne : ¬ k = hd := fun hc => hh hc.symm
        simp [List.mem_cons, hk, hne, hh]

theorem addNewState_events_append (dag : EventDAG) (e : Event)
    (hhas : dag.has_event e.id = false) :
    (EventDAG.addNewState dag e).events = dag.events ++ [(e.id, e)] := by
  rw [(addNewState_fields dag e).1, insertA_of_lookup_none]
  cases hlk : lookupA dag.events e.id with
  | none => rfl
  | some v =>
    exact absurd hhas (by simp [EventDAG.has_event, containsA, hlk])

theorem addNewState_has_event (dag : EventDAG) (e : Event) (p : String) :
    (EventDAG.addNewState dag e).has_event p =
      (decide (e.id = p) || dag.has_event p) := by
  by_cases h : e.id = p <;>
    simp [EventDAG.has_event, containsA, (addNewState_fields dag e).1,
      lookupA_insertA, h]

theorem DAGInv_empty : DAGInv EventDAG.empty := by
  refine ⟨?_, ?_, ?_⟩ <;>
    simp [DAGInv, EventDAG.empty, containsA, EventDAG.has_event]

theorem DAGInv_add_event (tsOk : String → Bool) (dag : EventDAG) (e : Event)
    (hinv : DAGInv dag) : DAGInv ((EventDAG.add_event tsOk dag e).2) := by
  rcases add_event_cases tsOk dag e with
    ⟨err, heq⟩ | ⟨hhas, heq⟩ | ⟨hhas, hseq, hpar, hval, heq⟩
  · rw [heq]; exact hinv
  · rw [heq]; exact hinv
  · rw [heq]
    obtain ⟨hkey, hclosure, htips⟩ := hinv
    have hev := addNewState_events_append dag e hhas
    refine ⟨?_, ?_, ?_⟩
    · intro kv hkv
      rw [hev] at hkv
      rcases List.mem_append.mp hkv with h | h
      · exact hkey kv h
      · have hkv' : kv = (e.id, e) := by simpa using h
        rw [hkv']
    · intro kv hkv p hp
      rw [hev] at hkv
      rcases List.mem_append.mp hkv with h | h
      · have hc := hclosure kv h p hp
        rw [addNewState_has_event]
        simp [hc]
      · have hkv' : kv = (e.id, e) := by simpa using h
        subst hkv'
        have hc := hpar p hp
        rw [addNewState_has_event]
        simp [hc]
    · intro id
      have hSt : containsA (EventDAG.addNewState dag e).tips id =
          (decide (e.id = id) ||
            (decide (id ∉ e.parents) && containsA dag.tips id)) := by
        rw [(addNewState_fields dag e).2.2]
        by_cases h : e.id = id
        · simp [containsA, lookupA_insertA, h]
        · simp only [containsA, lookupA_insertA, if_neg h]
          rw [lookupA_removeFold]
          by_cases hm : id ∈ e.parents <;> simp [h, hm]
      rw [hSt]
      constructor
      · intro h
        rcases (by simpa using h :
            e.id = id ∨ (id ∉ e.parents ∧ containsA dag.tips id = true)) with
          h1 | ⟨h2, h3⟩
        · subst h1
          refine ⟨by rw [addNewState_has_event]; simp, ?_⟩
          intro kv hkv
          rw [hev] at hkv
          rcases List.mem_append.mp hkv with hk | hk
          · intro hmem
            have hc := hclosure kv hk e.id hmem
            exact absurd hc (by simp [hhas])
          · have hkv' : kv = (e.id, e) := by simpa using hk
            subst hkv'
            intro hmem
            have hc := hpar e.id hmem
            exact absurd hc (by simp [hhas])
        · have hold := (htips id).mp h3
          refine ⟨by rw [addNewState_has_event]; simp [hold.1], ?_⟩
          intro kv hkv
          rw [hev] at hkv
          rcases List.mem_append.mp hkv with hk | hk
          · exact hold.2 kv hk
          · have hkv' : kv = (e.id, e) := by simpa using hk
            subst hkv'
            exact h2
      · rintro ⟨hhasid, hnopar⟩
        by_cases hid : e.id = id
        · simp [hid]
        · have hne : dag.has_event id = true := by
            rw [addNewState_has_event] at hhasid
            simpa [hid] using hhasid
          have hp2 : ∀ kv ∈ dag.events, id ∉ kv.2.parents := fun kv hkv =>
            hnopar kv (by rw [hev]; exact List.mem_append.mpr (.inl hkv))
          have hnp : id ∉ e.parents :=
            hnopar (e.id, e) (by rw [hev]; simp)
          have htip2 := (htips id).mpr ⟨hne, hp2⟩
          simp [hid, hnp, htip2]

theorem DAGInv_runAdds (tsOk : String → Bool) (events : List Event) :
    ∀ dag : EventDAG, DAGInv dag →
      DAGInv (EventDAG.runAdds tsOk dag events) := by
  induction events with
  | nil => intro dag h; exact h
  | cons e es ih =>
    intro dag h
    exact ih _ (DAGInv_add_event tsOk dag e h)

/-- C5: after any sequence of `add_event` calls starting from the empty
store, the `tips` sub-store contains exactly those stored events that no
stored event lists as a parent. -/
theorem claim_C5 (tsOk : String → Bool) (events : List Event) (event_id : String) :
    containsA (EventDAG.runAdds tsOk EventDAG.empty events).tips event_id = true ↔
      ((EventDAG.runAdds tsOk EventDAG.empty events).has_event event_id = true ∧
        ∀ kv ∈ (EventDAG.runAdds tsOk EventDAG.empty events).events,
          event_id ∉ kv.2.parents) :=
  (DAGInv_runAdds tsOk events EventDAG.empty DAGInv_empty).2.2 event_id

/-! ## Claim theorems: execution metrics, gossip sync, validation -/

/-- C8 (refuting evaluation): the claim says `exec_metrics.host_function_calls`
equals the number of host function calls made during the execution. The
source hardcodes the field to `0` with a `TODO: Track from sandbox access
log` comment, so for any execution that makes at least one host call the
reported metric is wrong: the first conjunct shows the embedded metrics
constructor always reports `0` whatever happened, the second evaluates it
on an execution that made one host call. -/
theorem claim_C8 :
    (∀ (enable_fuel : Bool)
        (fuel_limit fuel_remaining memory_data_size duration_ms
          host_calls_made : Nat),
      (execute_module_metrics enable_fuel fuel_limit fuel_remaining
        memory_data_size duration_ms host_calls_made).host_function_calls = 0) ∧
    (execute_module_metrics true 1000 400 65536 5 1).host_function_calls ≠ 1 :=
  ⟨fun _ _ _ _ _ _ => rfl, by decide⟩

set_option maxRecDepth 40000 in
/-- C9 (counterexample): on a store holding exactly one event and a sync
request with `limit = 1` (and `max_events_per_sync = 100`), the reply
returns that one event — nothing is truncated — yet `has_more` is `true`,
because the source computes `has_more = events_to_send.len() >= limit`
rather than "more events existed than were returned". -/
theorem claim_C9_counterexample :
    ¬ (((handle_sync_request
          { sync_interval_ms := 5000, max_events_per_sync := 100,
            peer_timeout_ms := 30000, max_concurrent_syncs := 5,
            ping_interval_ms := 10000 }
          ((EventDAG.add_event (fun _ => true) EventDAG.empty eventW1).2)
          none 1).2 = true) ↔
        ((handle_sync_request
          { sync_interval_ms := 5000, max_events_per_sync := 100,
            peer_timeout_ms := 30000, max_concurrent_syncs := 5,
            ping_interval_ms := 10000 }
          ((EventDAG.add_event (fun _ => true) EventDAG.empty eventW1).2)
          none 1).1.length <
          (((EventDAG.add_event (fun _ => true) EventDAG.empty eventW1).2).get_events_since
            none).length)) := by
  decide

/-- C9 (amended): the reply to `Sync{since, limit}` carries
`events_since(since)` truncated to at most
`min(limit, max_events_per_sync)` entries, and `has_more` is true if and
only if the number of events returned is at least `limit` (not: if and
only if events were truncated). -/
theorem claim_C9 (config : GossipConfig) (dag : EventDAG)
    (since : Option String) (limit : Nat) :
    (handle_sync_request config dag since limit).1 =
      (dag.get_events_since since).take (min limit config.max_events_per_sync) ∧
    ((handle_sync_request config dag since limit).2 = true ↔
      limit ≤ (handle_sync_request config dag since limit).1.length) := by
  refine ⟨rfl, ?_⟩
  simp [handle_sync_request]

/-- C10: whenever validation fails (`is_valid = false`), the result's
`exports`, `imports` and `warnings` lists are all empty — every failing
path goes through `ValidationResult::failure`, which discards the
accumulated warnings (in particular the size warning for capsules above
80% of the limit); warnings are only attached to valid results. -/
theorem claim_C10 (from_binary : List Nat → Option ModuleInfo)
    (cfg : ValidatorConfig) (wasm_bytes : List Nat)
    (h : (WasmValidator.validate from_binary cfg wasm_bytes).is_valid = false) :
    (WasmValidator.validate from_binary cfg wasm_bytes).exports = [] ∧
    (WasmValidator.validate from_binary cfg wasm_bytes).imports = [] ∧
    (WasmValidator.validate from_binary cfg wasm_bytes).warnings = [] := by
  simp only [WasmValidator.validate] at h ⊢
  by_cases h1 : wasm_bytes.length > cfg.max_size_bytes
  · rw [if_pos h1]
    exact ⟨rfl, rfl, rfl⟩
  · rw [if_neg h1] at h ⊢
    revert h
    generalize from_binary wasm_bytes = ob
    intro h
    cases ob with
    | none =>
      exact ⟨rfl, rfl, rfl⟩
    | some mi =>
      by_cases hc : (validationErrors cfg mi).isEmpty = true
      · simp [hc, ValidationResult.success] at h
      · simp [hc, ValidationResult.failure]

/-- Witness for C10: a 3-byte capsule against a limit of 2 bytes fails
validation, and its result carries empty exports, imports and
warnings. -/
theorem claim_C10_witness :
    ((WasmValidator.validate (fun _ => none)
        { max_size_bytes := 2, strict_imports := true,
          require_standard_exports := true } [0, 0, 0]).is_valid = false) ∧
    ((WasmValidator.validate (fun _ => none)
        { max_size_bytes := 2, strict_imports := true,
          require_standard_exports := true } [0, 0, 0]).exports = [] ∧
      (WasmValidator.validate (fun _ => none)
        { max_size_bytes := 2, strict_imports := true,
          require_standard_exports := true } [0, 0, 0]).imports = [] ∧
      (WasmValidator.validate (fun _ => none)
        { max_size_bytes := 2, strict_imports := true,
          require_standard_exports := true } [0, 0, 0]).warnings = []) :=
  ⟨by decide,
   claim_C10 (fun _ => none)
     { max_size_bytes := 2, strict_imports := true,
       require_standard_exports := true } [0, 0, 0] (by decide)⟩

end Tenzik

